import Mathlib

/-!
Shallow embedding of the diagram cache (`src/diagrams/cache.py`): the
`CacheEntry` record, the `DiagramCache` class and its operations
(`is_cached`, `get_cached_outputs`, `cache_diagram`, `invalidate`,
`cleanup_stale_entries`, `get_cache_stats`), its JSON index
serialization (`CacheEntry.to_dict` / `CacheEntry.from_dict`,
`_load_cache` / `_save_cache`) and the constructor.

Modelling conventions:
* File contents are byte lists; SHA-256 (`hashlib.sha256(...).hexdigest()`)
  is an external library and enters as an explicit function parameter
  `sha : Bytes → String`.
* Timestamps (`st_mtime`, `datetime`) are integers with their order.
* The file system is a partial map from path strings to file data, plus
  the environment-dependent canonicalisation `Path(p).resolve()`.
* `self.cache_data` is a Python `dict`; it is modelled as an association
  list whose keys are unique (`KeysNodup`), with `d[k] = v` as
  `insertKey`, `del d[k]` as `eraseKey` and `k in d` as `lookupKey`.
* Python exceptions relevant to `_load_cache` are the `PyErr` type;
  functions that can raise return `Except PyErr _`.
* The on-disk index document `<cacheDir>/diagram_cache.json` is the
  `indexFile` component of the `World`; its JSON text length is abstracted
  as a function parameter `encSize`.
-/

/-- Bytes of a file or of an encoded string, as naturals `0..255`. -/
abbrev Bytes := List Nat

/-- One file on disk: its modification time (`st_mtime`) and its content;
`bytes = none` models a file whose `open`/`read` raises, which sends
`_calculate_file_hash` into its `except` branch. -/
structure FileData where
  mtime : Int
  bytes : Option Bytes
deriving DecidableEq

/-- The file system as the cache sees it: which source paths exist
(`files`), and `Path(p).resolve()` (`resolve`), which canonicalises a
path using the current directory and symlinks and is therefore part of
the environment, not of the path string. -/
structure FS where
  files : String → Option FileData
  resolve : String → String

/-- `CacheEntry` (dataclass): one cached diagram. `last_modified` is the
timestamp; `output_files` and `metadata` are string-keyed mappings. -/
structure CacheEntry where
  file_path : String
  content_hash : String
  last_modified : Int
  output_files : List (String × String)
  metadata : List (String × String)
deriving DecidableEq

/-- A `last_modified` value found in the JSON document: either a string
that `datetime.fromisoformat` parses (`valid t`) or one it rejects with
`ValueError` (`malformed`). -/
inductive RawTs where
  | valid (t : Int)
  | malformed
deriving DecidableEq

/-- A serialized entry as read back from JSON: each expected field may be
missing, and `extra` records whether unknown extra keys are present
(either defect makes `CacheEntry(**data)` raise `TypeError`). -/
structure RawEntry where
  file_path : Option String
  content_hash : Option String
  last_modified : Option RawTs
  output_files : Option (List (String × String))
  metadata : Option (List (String × String))
  extra : Bool
deriving DecidableEq

/-- The parsed shape of the index file: `corrupt` models text on which
`json.load` raises `JSONDecodeError`; `doc` is a top-level JSON object. -/
inductive IndexContent where
  | corrupt
  | doc (entries : List (String × RawEntry))
deriving DecidableEq

/-- The on-disk index file: its content and its byte size (`st_size`). -/
structure IndexFile where
  content : IndexContent
  byteSize : Nat
deriving DecidableEq

/-- The world outside the in-memory cache: the source-file system and the
index document in the cache directory (`none` = not yet written). -/
structure World where
  fs : FS
  indexFile : Option IndexFile

/-- The Python exceptions that matter to `_load_cache`: the first three
are caught by its `except (json.JSONDecodeError, KeyError, ValueError)`
clause, `typeError` is not. -/
inductive PyErr where
  | jsonDecodeError
  | keyError
  | valueError
  | typeError
deriving DecidableEq

/-- In-memory state of a `DiagramCache` instance. -/
structure CacheState where
  cache_dir : String
  cache_data : List (String × CacheEntry)
deriving DecidableEq

/-- Lookup in a Python dict modelled as an association list. -/
def lookupKey {α : Type} : List (String × α) → String → Option α
  | [], _ => none
  | kv :: rest, k => if kv.1 == k then some kv.2 else lookupKey rest k

/-- `d[k] = v`: replace the binding in place if the key is present,
otherwise append it (Python dicts keep insertion order). -/
def insertKey {α : Type} : List (String × α) → String → α → List (String × α)
  | [], k, v => [(k, v)]
  | kv :: rest, k, v =>
    if kv.1 == k then (k, v) :: rest else kv :: insertKey rest k v

/-- `del d[k]`: dict keys are unique, so removing every pair with key `k`
is the same operation as removing the one binding. -/
def eraseKey {α : Type} (m : List (String × α)) (k : String) :
    List (String × α) :=
  m.filter (fun kv => kv.1 != k)

/-- The dict invariant: the keys of the association list are distinct. -/
def KeysNodup {α : Type} (m : List (String × α)) : Prop :=
  (m.map Prod.fst).Nodup

instance {α : Type} (m : List (String × α)) : Decidable (KeysNodup m) :=
  inferInstanceAs (Decidable ((m.map Prod.fst).Nodup))

/-- `content.encode('utf-8')`. -/
def utf8Bytes (s : String) : Bytes :=
  s.toUTF8.toList.map (fun b => b.toNat)

/-- `DiagramCache._calculate_file_hash`: the empty string is the sentinel
for a missing file and for a read error; otherwise the hex digest of the
file's bytes. -/
def calculate_file_hash (sha : Bytes → String) (fs : FS)
    (file_path : String) : String :=
  match fs.files file_path with
  | none => ""
  | some fd =>
    match fd.bytes with
    | none => ""
    | some bs => sha bs

/-- `DiagramCache._calculate_content_hash`: hex digest of the UTF-8
encoding of the string. -/
def calculate_content_hash (sha : Bytes → String) (content : String) :
    String :=
  sha (utf8Bytes content)

/-- `CacheEntry.to_dict`: every field serialized, `last_modified` as its
ISO-format string (which `fromisoformat` parses back). -/
def CacheEntry.to_dict (e : CacheEntry) : RawEntry :=
  { file_path := some e.file_path
    content_hash := some e.content_hash
    last_modified := some (RawTs.valid e.last_modified)
    output_files := some e.output_files
    metadata := some e.metadata
    extra := false }

/-- `CacheEntry.from_dict`: first `data['last_modified']` is read
(`KeyError` if absent) and parsed (`ValueError` if malformed), then
`CacheEntry(**data)` raises `TypeError` on any missing or unexpected
field. -/
def CacheEntry.from_dict (r : RawEntry) : Except PyErr CacheEntry :=
  match r.last_modified with
  | none => .error .keyError
  | some RawTs.malformed => .error .valueError
  | some (RawTs.valid t) =>
    match r.file_path, r.content_hash, r.output_files, r.metadata, r.extra with
    | some fp, some ch, some ofs, some md, false =>
      .ok { file_path := fp, content_hash := ch, last_modified := t,
            output_files := ofs, metadata := md }
    | _, _, _, _, _ => .error .typeError

/-- The loop of `_load_cache`: entries are deserialized in order into the
dict; the first exception aborts the whole load. -/
def loadEntries : List (String × RawEntry) → List (String × CacheEntry) →
    Except PyErr (List (String × CacheEntry))
  | [], acc => .ok acc
  | (k, r) :: rest, acc =>
    match CacheEntry.from_dict r with
    | .error e => .error e
    | .ok ce => loadEntries rest (insertKey acc k ce)

/-- The `DiagramCache` constructor together with `_load_cache`: a missing
index file gives an empty cache; `JSONDecodeError`, `KeyError` and
`ValueError` are caught (warning printed, cache reset to empty); any
other exception — in particular the `TypeError` from a structurally bad
entry — propagates and construction fails. -/
def mkDiagramCache (cache_dir : String) (w : World) :
    Except PyErr CacheState :=
  match w.indexFile with
  | none => .ok { cache_dir := cache_dir, cache_data := [] }
  | some f =>
    match f.content with
    | .corrupt => .ok { cache_dir := cache_dir, cache_data := [] }
    | .doc entries =>
      match loadEntries entries [] with
      | .ok cd => .ok { cache_dir := cache_dir, cache_data := cd }
      | .error .jsonDecodeError => .ok { cache_dir := cache_dir, cache_data := [] }
      | .error .keyError => .ok { cache_dir := cache_dir, cache_data := [] }
      | .error .valueError => .ok { cache_dir := cache_dir, cache_data := [] }
      | .error .typeError => .error .typeError

/-- The serialization `_save_cache` writes: each entry through `to_dict`. -/
def serializeEntries (cd : List (String × CacheEntry)) :
    List (String × RawEntry) :=
  cd.map (fun kv => (kv.1, kv.2.to_dict))

/-- `DiagramCache._save_cache`: overwrite the index document with the
serialized dict; `encSize` abstracts the JSON text's byte length. -/
def save_cache (encSize : List (String × RawEntry) → Nat)
    (st : CacheState) (w : World) : World :=
  { w with
    indexFile := some
      { content := IndexContent.doc (serializeEntries st.cache_data)
        byteSize := encSize (serializeEntries st.cache_data) } }

/-- `DiagramCache.is_cached`. -/
def is_cached (sha : Bytes → String) (st : CacheState) (fs : FS)
    (file_path : String) (content : Option String) : Bool :=
  let cache_key := fs.resolve file_path
  match lookupKey st.cache_data cache_key with
  | none => false
  | some entry =>
    match content with
    | some c => calculate_content_hash sha c == entry.content_hash
    | none =>
      match fs.files file_path with
      | some fd =>
        if entry.last_modified < fd.mtime then false
        else calculate_file_hash sha fs file_path == entry.content_hash
      | none => true

/-- `Path(p).is_absolute()` on a POSIX system: the path begins with `/`. -/
def isAbsolutePath (p : String) : Bool :=
  match p.data with
  | [] => false
  | c :: _ => c = '/'

/-- `DiagramCache.get_cached_outputs`. -/
def get_cached_outputs (st : CacheState) (fs : FS) (file_path : String) :
    Option (List (String × String)) :=
  match lookupKey st.cache_data (fs.resolve file_path) with
  | none => none
  | some entry =>
    if entry.output_files.any
        (fun kv => isAbsolutePath kv.2 && (fs.files kv.2).isNone)
    then none
    else some entry.output_files

/-- `DiagramCache.cache_diagram`; `now` is `datetime.now()`, used when the
source file does not exist. -/
def cache_diagram (sha : Bytes → String)
    (encSize : List (String × RawEntry) → Nat)
    (st : CacheState) (w : World) (file_path : String)
    (content : Option String)
    (output_files : Option (List (String × String)))
    (metadata : Option (List (String × String))) (now : Int) :
    CacheState × World :=
  let cache_key := w.fs.resolve file_path
  let content_hash :=
    match content with
    | some c => calculate_content_hash sha c
    | none => calculate_file_hash sha w.fs file_path
  let last_modified :=
    match w.fs.files file_path with
    | some fd => fd.mtime
    | none => now
  let entry : CacheEntry :=
    { file_path := file_path, content_hash := content_hash,
      last_modified := last_modified,
      output_files := output_files.getD [],
      metadata := metadata.getD [] }
  let st' := { st with cache_data := insertKey st.cache_data cache_key entry }
  (st', save_cache encSize st' w)

/-- `DiagramCache.invalidate`: delete and persist only when the key is
present. -/
def invalidate (encSize : List (String × RawEntry) → Nat)
    (st : CacheState) (w : World) (file_path : String) :
    CacheState × World :=
  let cache_key := w.fs.resolve file_path
  match lookupKey st.cache_data cache_key with
  | none => (st, w)
  | some _ =>
    let st' := { st with cache_data := eraseKey st.cache_data cache_key }
    (st', save_cache encSize st' w)

/-- `DiagramCache.cleanup_stale_entries`: collect the keys of entries
whose recorded `file_path` no longer exists, delete them, persist when at
least one was collected, return the count. -/
def cleanup_stale_entries (encSize : List (String × RawEntry) → Nat)
    (st : CacheState) (w : World) : CacheState × World × Nat :=
  let stale_keys :=
    (st.cache_data.filter
      (fun kv => (w.fs.files kv.2.file_path).isNone)).map Prod.fst
  let st' := { st with cache_data := stale_keys.foldl eraseKey st.cache_data }
  let w' := if stale_keys.isEmpty then w else save_cache encSize st' w
  (st', w', stale_keys.length)

/-- The record returned by `get_cache_stats`. -/
structure CacheStats where
  total_entries : Nat
  total_outputs : Nat
  cache_file_size : Nat
  cache_file_path : String
deriving DecidableEq

/-- `self.cache_file = self.cache_dir / "diagram_cache.json"`, as the
string `str(self.cache_file)`; the supplied `cache_dir` is not resolved. -/
def cacheFilePath (cache_dir : String) : String :=
  cache_dir ++ "/diagram_cache.json"

/-- `DiagramCache.get_cache_stats`. -/
def get_cache_stats (st : CacheState) (w : World) : CacheStats :=
  { total_entries := st.cache_data.length
    total_outputs := (st.cache_data.map (fun kv => kv.2.output_files.length)).sum
    cache_file_size :=
      match w.indexFile with
      | none => 0
      | some f => f.byteSize
    cache_file_path := cacheFilePath st.cache_dir }

/-! ### Dictionary lemmas -/

theorem lookupKey_insertKey_self {α : Type} (m : List (String × α))
    (k : String) (v : α) : lookupKey (insertKey m k v) k = some v := by
  induction m with
  | nil => simp [insertKey, lookupKey]
  | cons kv rest ih =>
    by_cases h : kv.1 = k
    · simp [insertKey, lookupKey, h]
    · simp [insertKey, lookupKey, h, ih]

theorem lookupKey_insertKey_ne {α : Type} (m : List (String × α))
    (k k' : String) (v : α) (h : k' ≠ k) :
    lookupKey (insertKey m k v) k' = lookupKey m k' := by
  induction m with
  | nil => simp [insertKey, lookupKey, Ne.symm h]
  | cons kv rest ih =>
    by_cases hk : kv.1 = k
    · have hne : ¬ kv.1 = k' := fun hh => h (hh.symm.trans hk)
      simp [insertKey, hk, lookupKey, Ne.symm h, hne]
    · simp [insertKey, hk, lookupKey, ih]

theorem lookupKey_eraseKey_self {α : Type} (m : List (String × α))
    (k : String) : lookupKey (eraseKey m k) k = none := by
  induction m with
  | nil => simp [eraseKey, lookupKey]
  | cons kv rest ih =>
    by_cases h : kv.1 = k
    · simpa [eraseKey, List.filter_cons, h] using ih
    · simpa [eraseKey, List.filter_cons, h, lookupKey] using ih

theorem lookupKey_eraseKey_ne {α : Type} (m : List (String × α))
    (k k' : String) (h : k' ≠ k) :
    lookupKey (eraseKey m k) k' = lookupKey m k' := by
  induction m with
  | nil => simp [eraseKey, lookupKey]
  | cons kv rest ih =>
    by_cases hk : kv.1 = k
    · have hne : ¬ kv.1 = k' := fun hh => h (hh.symm.trans hk)
      simpa [eraseKey, List.filter_cons, hk, lookupKey, hne, Ne.symm h] using ih
    · by_cases hk' : kv.1 = k'
      · simp [eraseKey, List.filter_cons, hk, hk', lookupKey, h]
      · simpa [eraseKey, List.filter_cons, hk, hk', lookupKey, h] using ih

theorem lookupKey_mem {α : Type} {m : List (String × α)} {k : String}
    {v : α} (h : lookupKey m k = some v) : (k, v) ∈ m := by
  induction m with
  | nil => simp [lookupKey] at h
  | cons kv rest ih =>
    obtain ⟨a, b⟩ := kv
    by_cases hk : a = k
    · subst hk
      simp [lookupKey] at h
      subst h
      exact List.mem_cons_self _ _
    · simp [lookupKey, hk] at h
      exact List.mem_cons_of_mem _ (ih h)

theorem mem_lookupKey {α : Type} {m : List (String × α)}
    (hnd : KeysNodup m) {kv : String × α} (h : kv ∈ m) :
    lookupKey m kv.1 = some kv.2 := by
  induction m with
  | nil => simp at h
  | cons kv0 rest ih =>
    rw [KeysNodup, List.map_cons, List.nodup_cons] at hnd
    rcases List.mem_cons.mp h with h1 | h1
    · subst h1; simp [lookupKey]
    · have hne : ¬ kv0.1 = kv.1 := fun he =>
        hnd.1 (he.symm ▸ List.mem_map_of_mem Prod.fst h1)
      simp [lookupKey, hne, ih hnd.2 h1]

theorem lookupKey_eq_none_iff {α : Type} {m : List (String × α)}
    {k : String} : lookupKey m k = none ↔ k ∉ m.map Prod.fst := by
  induction m with
  | nil => simp [lookupKey]
  | cons kv rest ih =>
    by_cases hk : kv.1 = k
    · simp [lookupKey, hk]
    · simp [lookupKey, hk, ih, Ne.symm hk]

theorem lookupKey_filter_none {α : Type} {m : List (String × α)}
    {k : String} (p : String × α → Bool) (h : lookupKey m k = none) :
    lookupKey (m.filter p) k = none := by
  induction m with
  | nil => simp [lookupKey]
  | cons kv rest ih =>
    by_cases hk : kv.1 = k
    · simp [lookupKey, hk] at h
    · have h' : lookupKey rest k = none := by simpa [lookupKey, hk] using h
      rw [List.filter_cons]
      by_cases hp : p kv = true
      · simpa [hp, lookupKey, hk] using ih h'
      · simpa [hp] using ih h'

theorem lookupKey_filter {α : Type} {m : List (String × α)}
    (p : String × α → Bool) {k : String} {v : α}
    (hnd : KeysNodup m) (h : lookupKey m k = some v) :
    lookupKey (m.filter p) k = if p (k, v) = true then some v else none := by
  induction m with
  | nil => simp [lookupKey] at h
  | cons kv rest ih =>
    rw [KeysNodup, List.map_cons, List.nodup_cons] at hnd
    obtain ⟨a, b⟩ := kv
    by_cases hk : a = k
    · subst hk
      simp only [lookupKey, beq_self_eq_true, if_true] at h
      have hb : b = v := by simpa using h
      subst hb
      rw [List.filter_cons]
      by_cases hp : p (a, b) = true
      · simp [hp, lookupKey]
      · have hrest : lookupKey rest a = none :=
          lookupKey_eq_none_iff.mpr hnd.1
        simp [hp, lookupKey_filter_none p hrest]
    · rw [List.filter_cons]
      have h' : lookupKey rest k = some v := by
        simpa [lookupKey, hk] using h
      by_cases hp : p (a, b) = true
      · simpa [hp, lookupKey, hk] using ih hnd.2 h'
      · simpa [hp] using ih hnd.2 h'

theorem mem_keys_insertKey {α : Type} (m : List (String × α))
    (k x : String) (v : α) :
    x ∈ (insertKey m k v).map Prod.fst ↔ x ∈ m.map Prod.fst ∨ x = k := by
  induction m with
  | nil => simp [insertKey]
  | cons kv rest ih =>
    by_cases hk : kv.1 = k
    · simp only [insertKey, hk, beq_self_eq_true, if_true, List.map_cons,
        List.mem_cons]
      tauto
    · have hb : (kv.1 == k) = false := by simpa using hk
      simp only [insertKey, hb, Bool.false_eq_true, if_false, List.map_cons,
        List.mem_cons, ih]
      tauto

theorem keysNodup_insertKey {α : Type} (m : List (String × α))
    (k : String) (v : α) (hnd : KeysNodup m) :
    KeysNodup (insertKey m k v) := by
  induction m with
  | nil => simp [insertKey, KeysNodup]
  | cons kv rest ih =>
    rw [KeysNodup, List.map_cons, List.nodup_cons] at hnd
    by_cases hk : kv.1 = k
    · simp only [insertKey, hk, beq_self_eq_true, if_true]
      rw [KeysNodup, List.map_cons, List.nodup_cons]
      exact ⟨hk ▸ hnd.1, hnd.2⟩
    · have hb : (kv.1 == k) = false := by simpa using hk
      simp only [insertKey, hb, Bool.false_eq_true, if_false]
      rw [KeysNodup, List.map_cons, List.nodup_cons]
      refine ⟨?_, ih hnd.2⟩
      intro hmem
      rcases (mem_keys_insertKey rest k kv.1 v).mp hmem with h1 | h1
      · exact hnd.1 h1
      · exact hk h1

theorem foldl_eraseKey {α : Type} (ks : List String)
    (m : List (String × α)) :
    ks.foldl eraseKey m = m.filter (fun kv => !(ks.contains kv.1)) := by
  induction ks generalizing m with
  | nil => simp
  | cons k ks ih =>
    rw [List.foldl_cons, ih, eraseKey, List.filter_filter]
    congr 1
    funext kv
    simp only [List.contains_cons, Bool.not_or, bne]
    rw [Bool.and_comm]

/-! ### Serialization lemmas -/

theorem from_dict_to_dict (e : CacheEntry) :
    CacheEntry.from_dict (CacheEntry.to_dict e) = .ok e := rfl

theorem lookupKey_append_none {α : Type} {m1 m2 : List (String × α)}
    {k : String} (h1 : lookupKey m1 k = none)
    (h2 : lookupKey m2 k = none) : lookupKey (m1 ++ m2) k = none := by
  induction m1 with
  | nil => simpa
  | cons kv rest ih =>
    by_cases hk : kv.1 = k
    · simp [lookupKey, hk] at h1
    · have h' : lookupKey rest k = none := by simpa [lookupKey, hk] using h1
      simpa [lookupKey, hk] using ih h'

theorem insertKey_of_lookup_none {α : Type} {m : List (String × α)}
    {k : String} (v : α) (h : lookupKey m k = none) :
    insertKey m k v = m ++ [(k, v)] := by
  induction m with
  | nil => simp [insertKey]
  | cons kv rest ih =>
    by_cases hk : kv.1 = k
    · simp [lookupKey, hk] at h
    · have h' : lookupKey rest k = none := by simpa [lookupKey, hk] using h
      simp [insertKey, hk, ih h']

theorem loadEntries_serializeEntries (cd acc : List (String × CacheEntry)) :
    loadEntries (serializeEntries cd) acc =
      .ok (cd.foldl (fun a kv => insertKey a kv.1 kv.2) acc) := by
  induction cd generalizing acc with
  | nil => simp [serializeEntries, loadEntries]
  | cons kv rest ih =>
    simp only [serializeEntries, List.map_cons, loadEntries,
      from_dict_to_dict, List.foldl_cons]
    simpa [serializeEntries] using ih (insertKey acc kv.1 kv.2)

theorem foldl_insertKey_fresh (cd : List (String × CacheEntry))
    (acc : List (String × CacheEntry)) (hnd : KeysNodup cd)
    (hfresh : ∀ kv ∈ cd, lookupKey acc kv.1 = none) :
    cd.foldl (fun a kv => insertKey a kv.1 kv.2) acc = acc ++ cd := by
  induction cd generalizing acc with
  | nil => simp
  | cons kv rest ih =>
    rw [KeysNodup, List.map_cons, List.nodup_cons] at hnd
    rw [List.foldl_cons,
      insertKey_of_lookup_none kv.2 (hfresh kv (List.mem_cons_self _ _))]
    have hfresh' : ∀ kv' ∈ rest, lookupKey (acc ++ [(kv.1, kv.2)]) kv'.1 = none := by
      intro kv' hm
      have hne : ¬ kv.1 = kv'.1 := fun he =>
        hnd.1 (he ▸ List.mem_map_of_mem Prod.fst hm)
      exact lookupKey_append_none (hfresh kv' (List.mem_cons_of_mem _ hm))
        (by simp [lookupKey, hne])
    rw [ih (acc ++ [(kv.1, kv.2)]) hnd.2 hfresh']
    simp

theorem loadEntries_roundtrip (cd : List (String × CacheEntry))
    (hnd : KeysNodup cd) :
    loadEntries (serializeEntries cd) [] = .ok cd := by
  rw [loadEntries_serializeEntries,
    foldl_insertKey_fresh cd [] hnd (fun kv _ => rfl)]
  simp

/-! ### Concrete fixtures used by witnesses and counterexamples -/

/-- A hash function used as a stand-in for SHA-256 in witnesses. -/
def hashH : Bytes → String := fun _ => "h"

/-- A size function for the serialized JSON document. -/
def encZero : List (String × RawEntry) → Nat := fun _ => 0

/-- A file system with exactly one file, `"a.puml"`. -/
def fsOne : FS :=
  { files := fun p => if p = "a.puml" then some ⟨5, some [1, 2]⟩ else none
    resolve := fun s => s }

/-- An empty file system. -/
def fsEmpty : FS := { files := fun _ => none, resolve := fun s => s }

def fdOne : FileData := { mtime := 5, bytes := some [1, 2] }

def entryOne : CacheEntry :=
  { file_path := "a.puml", content_hash := "h", last_modified := 5,
    output_files := [("json", "out/a.json")], metadata := [] }

def stOne : CacheState :=
  { cache_dir := ".cache", cache_data := [("a.puml", entryOne)] }

def wEmpty : World := { fs := fsEmpty, indexFile := none }

/-! ### Claim C1 -/

/-- C1: with an entry present, no content supplied and the source file on
disk, `is_cached` returns false as soon as the file's mtime is strictly
newer than the entry's `last_modified` — and it does so for every hash
function, i.e. without computing any hash — and otherwise returns true
exactly when the file's current digest equals the stored `content_hash`. -/
theorem C1_is_cached_file_mode (sha : Bytes → String) (st : CacheState)
    (fs : FS) (p : String) (entry : CacheEntry) (fd : FileData)
    (hent : lookupKey st.cache_data (fs.resolve p) = some entry)
    (hfd : fs.files p = some fd) :
    (entry.last_modified < fd.mtime →
      ∀ sha2 : Bytes → String, is_cached sha2 st fs p none = false) ∧
    (¬ entry.last_modified < fd.mtime → ∀ bs, fd.bytes = some bs →
      (is_cached sha st fs p none = true ↔ sha bs = entry.content_hash)) := by
  constructor
  · intro hlt sha2
    simp [is_cached, hent, hfd, hlt]
  · intro hge bs hbs
    simp [is_cached, hent, hfd, hge, calculate_file_hash, hbs]

theorem C1_witness :
    lookupKey stOne.cache_data (fsOne.resolve "a.puml") = some entryOne ∧
    fsOne.files "a.puml" = some fdOne ∧
    ((entryOne.last_modified < fdOne.mtime →
       ∀ sha2 : Bytes → String, is_cached sha2 stOne fsOne "a.puml" none = false) ∧
     (¬ entryOne.last_modified < fdOne.mtime → ∀ bs, fdOne.bytes = some bs →
       (is_cached hashH stOne fsOne "a.puml" none = true ↔
         hashH bs = entryOne.content_hash))) :=
  ⟨rfl, rfl, C1_is_cached_file_mode hashH stOne fsOne "a.puml" entryOne fdOne rfl rfl⟩

/-! ### Claim C4 -/

/-- C4: with content supplied, `is_cached` is false when no entry exists
for the canonical key, otherwise true exactly when the digest of the
UTF-8 encoding of the content equals the stored `content_hash`; and the
result does not depend on the file system's files (existence, bytes,
modification times) — only on `resolve`. -/
theorem C4_is_cached_content_mode (sha : Bytes → String) (st : CacheState)
    (fs : FS) (p c : String) :
    (lookupKey st.cache_data (fs.resolve p) = none →
      is_cached sha st fs p (some c) = false) ∧
    (∀ e, lookupKey st.cache_data (fs.resolve p) = some e →
      (is_cached sha st fs p (some c) = true ↔
        sha (utf8Bytes c) = e.content_hash)) ∧
    (∀ files2 : String → Option FileData,
      is_cached sha st { files := files2, resolve := fs.resolve } p (some c) =
        is_cached sha st fs p (some c)) := by
  refine ⟨?_, ?_, ?_⟩
  · intro h
    simp [is_cached, h]
  · intro e h
    simp [is_cached, h, calculate_content_hash]
  · intro files2
    rfl

theorem C4_witness :
    (lookupKey stOne.cache_data (fsOne.resolve "b.puml") = none →
      is_cached hashH stOne fsOne "b.puml" (some "x") = false) ∧
    (∀ e, lookupKey stOne.cache_data (fsOne.resolve "b.puml") = some e →
      (is_cached hashH stOne fsOne "b.puml" (some "x") = true ↔
        hashH (utf8Bytes "x") = e.content_hash)) ∧
    (∀ files2 : String → Option FileData,
      is_cached hashH stOne { files := files2, resolve := fsOne.resolve }
          "b.puml" (some "x") =
        is_cached hashH stOne fsOne "b.puml" (some "x")) :=
  C4_is_cached_content_mode hashH stOne fsOne "b.puml" "x"

/-! ### Claim C5 -/

/-- C5: with an entry present, no content supplied and the source file
absent from disk, `is_cached` returns true. -/
theorem C5_is_cached_absent_file (sha : Bytes → String) (st : CacheState)
    (fs : FS) (p : String) (e : CacheEntry)
    (hent : lookupKey st.cache_data (fs.resolve p) = some e)
    (hmiss : fs.files p = none) :
    is_cached sha st fs p none = true := by
  simp [is_cached, hent, hmiss]

theorem C5_witness :
    lookupKey stOne.cache_data (fsEmpty.resolve "a.puml") = some entryOne ∧
    fsEmpty.files "a.puml" = none ∧
    is_cached hashH stOne fsEmpty "a.puml" none = true :=
  ⟨rfl, rfl, C5_is_cached_absent_file hashH stOne fsEmpty "a.puml" entryOne rfl rfl⟩

/-! ### Claim C6 -/

/-- C6: `get_cached_outputs` returns `none` when no entry exists; with an
entry, it returns `none` as soon as one absolute output path is missing
on disk (even if the others exist), returns the stored mapping unchanged
when every absolute output path exists, and never existence-checks
relative output paths (the result is insensitive to any change of the
file system on non-absolute paths). -/
theorem C6_get_cached_outputs_spec (st : CacheState) (fs : FS) (p : String) :
    (lookupKey st.cache_data (fs.resolve p) = none →
      get_cached_outputs st fs p = none) ∧
    (∀ e, lookupKey st.cache_data (fs.resolve p) = some e →
      ∀ kv ∈ e.output_files, isAbsolutePath kv.2 = true →
        fs.files kv.2 = none → get_cached_outputs st fs p = none) ∧
    (∀ e, lookupKey st.cache_data (fs.resolve p) = some e →
      (∀ kv ∈ e.output_files, isAbsolutePath kv.2 = true →
        (fs.files kv.2).isSome = true) →
      get_cached_outputs st fs p = some e.output_files) ∧
    (∀ files2 : String → Option FileData,
      (∀ q, isAbsolutePath q = true → files2 q = fs.files q) →
      get_cached_outputs st { files := files2, resolve := fs.resolve } p =
        get_cached_outputs st fs p) := by
  refine ⟨?_, ?_, ?_, ?_⟩
  · intro h
    simp [get_cached_outputs, h]
  · intro e he kv hm habs hmiss
    have hany : (e.output_files.any
        (fun kv => isAbsolutePath kv.2 && (fs.files kv.2).isNone)) = true :=
      List.any_eq_true.mpr ⟨kv, hm, by simp [habs, hmiss]⟩
    simp [get_cached_outputs, he, hany]
  · intro e he hall
    cases hany : (e.output_files.any
        (fun kv => isAbsolutePath kv.2 && (fs.files kv.2).isNone)) with
    | false => simp [get_cached_outputs, he, hany]
    | true =>
      exfalso
      rcases List.any_eq_true.mp hany with ⟨kv, hm, hp⟩
      rcases Bool.and_eq_true_iff.mp hp with ⟨h1, h2⟩
      have hs := hall kv hm h1
      rw [Option.isNone_iff_eq_none.mp h2] at hs
      simp at hs
  · intro files2 hagree
    have hres : (({ files := files2, resolve := fs.resolve } : FS)).resolve
        = fs.resolve := rfl
    simp only [get_cached_outputs, hres]
    cases hl : lookupKey st.cache_data (fs.resolve p) with
    | none => rfl
    | some e =>
      have hany : (e.output_files.any
            (fun kv => isAbsolutePath kv.2 && (files2 kv.2).isNone))
          = (e.output_files.any
            (fun kv => isAbsolutePath kv.2 && (fs.files kv.2).isNone)) := by
        rw [Bool.eq_iff_iff, List.any_eq_true, List.any_eq_true]
        constructor
        · rintro ⟨kv, hm, hp⟩
          rcases Bool.and_eq_true_iff.mp hp with ⟨h1, _⟩
          refine ⟨kv, hm, ?_⟩
          rw [← hagree kv.2 h1]
          exact hp
        · rintro ⟨kv, hm, hp⟩
          rcases Bool.and_eq_true_iff.mp hp with ⟨h1, _⟩
          refine ⟨kv, hm, ?_⟩
          rw [hagree kv.2 h1]
          exact hp
      show (if (e.output_files.any
            (fun kv => isAbsolutePath kv.2 && (files2 kv.2).isNone)) = true
          then none else some e.output_files)
        = (if (e.output_files.any
            (fun kv => isAbsolutePath kv.2 && (fs.files kv.2).isNone)) = true
          then none else some e.output_files)
      rw [hany]

theorem C6_witness :
    (lookupKey stOne.cache_data (fsEmpty.resolve "a.puml") = some entryOne) ∧
    (∀ kv ∈ entryOne.output_files, isAbsolutePath kv.2 = true →
      (fsEmpty.files kv.2).isSome = true) ∧
    get_cached_outputs stOne fsEmpty "a.puml" = some entryOne.output_files :=
  ⟨rfl, by decide,
    ((C6_get_cached_outputs_spec stOne fsEmpty "a.puml").2.2.1 entryOne rfl
      (by decide))⟩

/-! ### Claim C9 -/

/-- C9 (amended): `get_cache_stats` reports the entry count, the sum of
the per-entry output-file counts, the index file's byte size (0 when the
file does not exist), and the index file path exactly as derived from the
supplied `cache_dir` — which is relative whenever `cache_dir` was
relative, not an absolute path. -/
theorem C9_get_cache_stats_spec (st : CacheState) (w : World) :
    (get_cache_stats st w).total_entries = st.cache_data.length ∧
    (get_cache_stats st w).total_outputs =
      (st.cache_data.map (fun kv => kv.2.output_files.length)).sum ∧
    (w.indexFile = none → (get_cache_stats st w).cache_file_size = 0) ∧
    (∀ f, w.indexFile = some f →
      (get_cache_stats st w).cache_file_size = f.byteSize) ∧
    (get_cache_stats st w).cache_file_path =
      st.cache_dir ++ "/diagram_cache.json" := by
  refine ⟨rfl, rfl, ?_, ?_, rfl⟩
  · intro h
    simp [get_cache_stats, h]
  · intro f h
    simp [get_cache_stats, h]

theorem C9_witness :
    wEmpty.indexFile = none ∧
    ((get_cache_stats stOne wEmpty).total_entries = stOne.cache_data.length ∧
     (get_cache_stats stOne wEmpty).total_outputs =
       (stOne.cache_data.map (fun kv => kv.2.output_files.length)).sum ∧
     (wEmpty.indexFile = none →
       (get_cache_stats stOne wEmpty).cache_file_size = 0) ∧
     (∀ f, wEmpty.indexFile = some f →
       (get_cache_stats stOne wEmpty).cache_file_size = f.byteSize) ∧
     (get_cache_stats stOne wEmpty).cache_file_path =
       stOne.cache_dir ++ "/diagram_cache.json") :=
  ⟨rfl, C9_get_cache_stats_spec stOne wEmpty⟩

/-- C9 counterexample: with the (default) relative cache directory
`".cache"`, the reported `cache_file_path` is the relative string
`".cache/diagram_cache.json"`, not the absolute path of the index file. -/
theorem C9_counterexample :
    (get_cache_stats { cache_dir := ".cache", cache_data := [] }
        wEmpty).cache_file_path = ".cache/diagram_cache.json" ∧
    isAbsolutePath ".cache/diagram_cache.json" = false := by
  constructor
  · rfl
  · decide

/-! ### Claim C10 -/

/-- C10: `cache_diagram` modifies at most the binding at the canonical
key of its path, and `invalidate` removes at most that binding: for every
other key the looked-up entry is unchanged. -/
theorem C10_frame (sha : Bytes → String)
    (encSize : List (String × RawEntry) → Nat) (st : CacheState)
    (w : World) (p : String) (c : Option String)
    (outs : Option (List (String × String)))
    (md : Option (List (String × String))) (now : Int) (k : String)
    (hk : k ≠ w.fs.resolve p) :
    lookupKey (cache_diagram sha encSize st w p c outs md now).1.cache_data k
      = lookupKey st.cache_data k ∧
    lookupKey (invalidate encSize st w p).1.cache_data k
      = lookupKey st.cache_data k := by
  constructor
  · exact lookupKey_insertKey_ne _ _ _ _ hk
  · simp only [invalidate]
    cases lookupKey st.cache_data (w.fs.resolve p) with
    | none => rfl
    | some e => exact lookupKey_eraseKey_ne _ _ _ hk

theorem C10_witness :
    ("b.puml" : String) ≠ wEmpty.fs.resolve "a.puml" ∧
    (lookupKey (cache_diagram hashH encZero stOne wEmpty "a.puml" none none
        none 0).1.cache_data "b.puml" = lookupKey stOne.cache_data "b.puml" ∧
     lookupKey (invalidate encZero stOne wEmpty "a.puml").1.cache_data "b.puml"
       = lookupKey stOne.cache_data "b.puml") :=
  ⟨by decide,
    C10_frame hashH encZero stOne wEmpty "a.puml" none none none 0 "b.puml"
      (by decide)⟩

/-! ### Claim C2 -/

/-- A hash function that returns a 64-character digest on every input. -/
def hexHash64 : Bytes → String := fun _ => String.mk (List.replicate 64 'a')

/-- C2 counterexample: even under a hash function that always produces
64-character digests, caching a path whose source file does not exist,
with no content supplied, stores the empty-string sentinel as
`content_hash` — not a 64-character hex digest. -/
theorem C2_counterexample :
    (hexHash64 []).length = 64 ∧
    (lookupKey (cache_diagram hexHash64 encZero
        { cache_dir := ".cache", cache_data := [] } wEmpty "a.puml"
        none none none 0).1.cache_data "a.puml").map CacheEntry.content_hash
      = some "" ∧
    ("" : String).length ≠ 64 := by
  refine ⟨by decide, by decide, by decide⟩

/-- C2 (amended): the entry written by `cache_diagram` carries either a
64-character digest or the empty-string sentinel, and the sentinel occurs
exactly when no content was supplied and the source file was missing or
unreadable at cache time. -/
theorem C2_content_hash_spec (sha : Bytes → String)
    (encSize : List (String × RawEntry) → Nat) (st : CacheState) (w : World)
    (p : String) (c : Option String)
    (outs md : Option (List (String × String))) (now : Int)
    (hgood : ∀ bs, (sha bs).length = 64) :
    ∃ e, lookupKey (cache_diagram sha encSize st w p c outs md
        now).1.cache_data (w.fs.resolve p) = some e ∧
      (e.content_hash.length = 64 ∨ e.content_hash = "") ∧
      (e.content_hash = "" ↔ c = none ∧
        (match w.fs.files p with
         | none => True
         | some fd => fd.bytes = none)) := by
  refine ⟨_, lookupKey_insertKey_self _ _ _, ?_, ?_⟩
  · cases c with
    | some s => exact Or.inl (hgood (utf8Bytes s))
    | none =>
      cases hf : w.fs.files p with
      | none => exact Or.inr (by simp [calculate_file_hash, hf])
      | some fd =>
        cases hb : fd.bytes with
        | none => exact Or.inr (by simp [calculate_file_hash, hf, hb])
        | some bs =>
          exact Or.inl (by simpa [calculate_file_hash, hf, hb] using hgood bs)
  · cases c with
    | some s =>
      constructor
      · intro h
        exfalso
        have hlen := hgood (utf8Bytes s)
        have h' : calculate_content_hash sha s = "" := h
        rw [calculate_content_hash] at h'
        rw [h'] at hlen
        simp at hlen
      · rintro ⟨hc, -⟩
        exact absurd hc (by simp)
    | none =>
      cases hf : w.fs.files p with
      | none => simp [calculate_file_hash, hf]
      | some fd =>
        cases hb : fd.bytes with
        | none => simp [calculate_file_hash, hf, hb]
        | some bs =>
          have hlen := hgood bs
          constructor
          · intro h
            exfalso
            have h' : calculate_file_hash sha w.fs p = "" := h
            simp [calculate_file_hash, hf, hb] at h'
            rw [h'] at hlen
            simp at hlen
          · rintro ⟨-, hh⟩
            simp [hb] at hh

theorem C2_witness :
    (∀ bs, (hexHash64 bs).length = 64) ∧
    (∃ e, lookupKey (cache_diagram hexHash64 encZero stOne wEmpty "a.puml"
        (some "v1") none none 0).1.cache_data (wEmpty.fs.resolve "a.puml")
        = some e ∧
      (e.content_hash.length = 64 ∨ e.content_hash = "") ∧
      (e.content_hash = "" ↔ (some "v1" : Option String) = none ∧
        (match wEmpty.fs.files "a.puml" with
         | none => True
         | some fd => fd.bytes = none))) :=
  ⟨fun _ => rfl,
    C2_content_hash_spec hexHash64 encZero stOne wEmpty "a.puml" (some "v1")
      none none 0 (fun _ => rfl)⟩

/-! ### Claim C3 -/

/-- A serialized entry whose `file_path` field is missing: `from_dict`
parses its timestamp fine and then `CacheEntry(**data)` raises
`TypeError`, which `_load_cache` does not catch. -/
def rawNoFilePath : RawEntry :=
  { file_path := none, content_hash := some "h",
    last_modified := some (RawTs.valid 0), output_files := some [],
    metadata := some [], extra := false }

/-- A world whose index file contains `rawNoFilePath`. -/
def wBadIndex : World :=
  { fs := fsEmpty,
    indexFile := some { content := IndexContent.doc [("k", rawNoFilePath)],
                        byteSize := 7 } }

/-- A serialized entry whose `last_modified` field is missing: `from_dict`
raises `KeyError`, which `_load_cache` does catch. -/
def rawNoTs : RawEntry :=
  { file_path := some "a.puml", content_hash := some "h",
    last_modified := none, output_files := some [], metadata := some [],
    extra := false }

/-- A world whose index file contains `rawNoTs`. -/
def wKeyErrIndex : World :=
  { fs := fsEmpty,
    indexFile := some { content := IndexContent.doc [("k", rawNoTs)],
                        byteSize := 5 } }

/-- C3 counterexample: an index file that parses as JSON but holds an
entry missing a required field other than `last_modified` (here
`file_path`) makes construction raise `TypeError` — the `except` clause
of `_load_cache` catches only `JSONDecodeError`, `KeyError` and
`ValueError`, so construction does not succeed. -/
theorem C3_counterexample :
    mkDiagramCache ".cache" wBadIndex = .error PyErr.typeError := rfl

/-- C3 (amended): construction succeeds with an empty cache when the index
file is absent, when its JSON is corrupt, and when entry deserialization
fails with `KeyError` (missing `last_modified` field) or `ValueError`
(bad timestamp format); on the resulting empty cache `is_cached` is false
for every path and `get_cache_stats` reports zero entries. (An entry
missing any other required field raises `TypeError` instead and crashes
construction — see the counterexample.) -/
theorem C3_load_failure_handling (dir : String) (w : World) :
    (w.indexFile = none → mkDiagramCache dir w = .ok ⟨dir, []⟩) ∧
    (∀ n, w.indexFile = some ⟨IndexContent.corrupt, n⟩ →
      mkDiagramCache dir w = .ok ⟨dir, []⟩) ∧
    (∀ entries n, w.indexFile = some ⟨IndexContent.doc entries, n⟩ →
      (loadEntries entries [] = .error PyErr.keyError ∨
       loadEntries entries [] = .error PyErr.valueError) →
      mkDiagramCache dir w = .ok ⟨dir, []⟩) ∧
    (∀ (sha : Bytes → String) (fs : FS) (p : String) (c : Option String),
      is_cached sha ⟨dir, []⟩ fs p c = false) ∧
    (∀ w2, (get_cache_stats (⟨dir, []⟩ : CacheState) w2).total_entries = 0) := by
  refine ⟨?_, ?_, ?_, ?_, ?_⟩
  · intro h
    simp [mkDiagramCache, h]
  · intro n h
    simp [mkDiagramCache, h]
  · intro entries n h herr
    rcases herr with herr | herr <;> simp [mkDiagramCache, h, herr]
  · intro sha fs p c
    simp [is_cached, lookupKey]
  · intro w2
    rfl

theorem C3_witness :
    loadEntries [("k", rawNoTs)] [] = .error PyErr.keyError ∧
    mkDiagramCache ".cache" wKeyErrIndex = .ok ⟨".cache", []⟩ ∧
    (∀ (sha : Bytes → String) (fs : FS) (p : String) (c : Option String),
      is_cached sha ⟨".cache", []⟩ fs p c = false) :=
  ⟨rfl,
    (C3_load_failure_handling ".cache" wKeyErrIndex).2.2.1 [("k", rawNoTs)] 5
      rfl (Or.inl rfl),
    (C3_load_failure_handling ".cache" wKeyErrIndex).2.2.2.1⟩

/-! ### Claim C7 -/

/-- C7: `cleanup_stale_entries` removes exactly the entries whose stored
`file_path` (the recorded, possibly relative path — not the canonical
lookup key) does not exist on disk, leaves every other entry untouched,
returns the number of entries removed, and writes the index to disk only
when at least one entry was removed. -/
theorem C7_cleanup_stale_entries (encSize : List (String × RawEntry) → Nat)
    (st : CacheState) (w : World) (hnd : KeysNodup st.cache_data) :
    (∀ k e, lookupKey st.cache_data k = some e →
      lookupKey (cleanup_stale_entries encSize st w).1.cache_data k =
        if (w.fs.files e.file_path).isSome then some e else none) ∧
    (∀ k, lookupKey st.cache_data k = none →
      lookupKey (cleanup_stale_entries encSize st w).1.cache_data k = none) ∧
    ((cleanup_stale_entries encSize st w).2.2 =
      (st.cache_data.filter
        (fun kv => (w.fs.files kv.2.file_path).isNone)).length) ∧
    ((cleanup_stale_entries encSize st w).2.2 = 0 →
      (cleanup_stale_entries encSize st w).2.1 = w) ∧
    (0 < (cleanup_stale_entries encSize st w).2.2 →
      (cleanup_stale_entries encSize st w).2.1 =
        save_cache encSize (cleanup_stale_entries encSize st w).1 w) := by
  have hcd : (cleanup_stale_entries encSize st w).1.cache_data
      = st.cache_data.filter (fun kv =>
          !(((st.cache_data.filter
              (fun kv => (w.fs.files kv.2.file_path).isNone)).map
                Prod.fst).contains kv.1)) :=
    foldl_eraseKey _ _
  have hmemiff : ∀ (k : String) (e : CacheEntry),
      lookupKey st.cache_data k = some e →
      ((((st.cache_data.filter
          (fun kv => (w.fs.files kv.2.file_path).isNone)).map
            Prod.fst).contains k) = true ↔
        (w.fs.files e.file_path).isNone = true) := by
    intro k e he
    constructor
    · intro hc
      have hk : k ∈ (st.cache_data.filter
          (fun kv => (w.fs.files kv.2.file_path).isNone)).map Prod.fst :=
        List.elem_iff.mp hc
      rcases List.mem_map.mp hk with ⟨kv, hkv, hfst⟩
      rcases List.mem_filter.mp hkv with ⟨hmem, hpred⟩
      have hlk := mem_lookupKey hnd hmem
      rw [hfst] at hlk
      have he2 : kv.2 = e := Option.some.inj (hlk.symm.trans he)
      rw [← he2]
      exact hpred
    · intro hstale
      have hm := lookupKey_mem he
      have hfmem : (k, e) ∈ st.cache_data.filter
          (fun kv => (w.fs.files kv.2.file_path).isNone) :=
        List.mem_filter.mpr ⟨hm, hstale⟩
      exact List.elem_iff.mpr (List.mem_map_of_mem Prod.fst hfmem)
  refine ⟨?_, ?_, ?_, ?_, ?_⟩
  · intro k e he
    rw [hcd, lookupKey_filter _ hnd he]
    cases hfile : w.fs.files e.file_path with
    | none =>
      have hcont := (hmemiff k e he).mpr (by simp [hfile])
      show (if (!((List.map Prod.fst (List.filter
            (fun kv => (w.fs.files kv.2.file_path).isNone)
            st.cache_data)).contains k)) = true
          then some e else none)
        = if (none : Option FileData).isSome = true then some e else none
      rw [hcont]
      rfl
    | some fd =>
      have hcont : ((st.cache_data.filter
          (fun kv => (w.fs.files kv.2.file_path).isNone)).map
            Prod.fst).contains k = false := by
        cases hq : ((st.cache_data.filter
            (fun kv => (w.fs.files kv.2.file_path).isNone)).map
              Prod.fst).contains k with
        | false => rfl
        | true =>
          have hmm := (hmemiff k e he).mp hq
          rw [hfile] at hmm
          simp at hmm
      show (if (!((List.map Prod.fst (List.filter
            (fun kv => (w.fs.files kv.2.file_path).isNone)
            st.cache_data)).contains k)) = true
          then some e else none)
        = if (some fd).isSome = true then some e else none
      rw [hcont]
      rfl
  · intro k hk
    rw [hcd]
    exact lookupKey_filter_none _ hk
  · show ((st.cache_data.filter
        (fun kv => (w.fs.files kv.2.file_path).isNone)).map Prod.fst).length
      = (st.cache_data.filter
        (fun kv => (w.fs.files kv.2.file_path).isNone)).length
    exact List.length_map _ _
  · intro h0
    have hnil : (st.cache_data.filter
        (fun kv => (w.fs.files kv.2.file_path).isNone)).map Prod.fst = [] :=
      List.length_eq_zero.mp h0
    show (if ((st.cache_data.filter
        (fun kv => (w.fs.files kv.2.file_path).isNone)).map
          Prod.fst).isEmpty then w
      else save_cache encSize (cleanup_stale_entries encSize st w).1 w) = w
    rw [hnil]
    rfl
  · intro hpos
    show (if ((st.cache_data.filter
        (fun kv => (w.fs.files kv.2.file_path).isNone)).map
          Prod.fst).isEmpty then w
      else save_cache encSize (cleanup_stale_entries encSize st w).1 w)
      = save_cache encSize (cleanup_stale_entries encSize st w).1 w
    cases hq : (st.cache_data.filter
        (fun kv => (w.fs.files kv.2.file_path).isNone)).map Prod.fst with
    | nil =>
      exfalso
      have hz : (cleanup_stale_entries encSize st w).2.2 = 0 := by
        show ((st.cache_data.filter
            (fun kv => (w.fs.files kv.2.file_path).isNone)).map
              Prod.fst).length = 0
        rw [hq]
        rfl
      rw [hz] at hpos
      exact Nat.lt_irrefl 0 hpos
    | cons a as =>
      rfl

theorem C7_witness :
    KeysNodup stOne.cache_data ∧
    lookupKey (cleanup_stale_entries encZero stOne wEmpty).1.cache_data
        "a.puml"
      = (if (wEmpty.fs.files entryOne.file_path).isSome then some entryOne
         else none) ∧
    (cleanup_stale_entries encZero stOne wEmpty).2.2 =
      (stOne.cache_data.filter
        (fun kv => (wEmpty.fs.files kv.2.file_path).isNone)).length :=
  ⟨by decide,
    (C7_cleanup_stale_entries encZero stOne wEmpty (by decide)).1 "a.puml"
      entryOne rfl,
    (C7_cleanup_stale_entries encZero stOne wEmpty (by decide)).2.2.1⟩

/-! ### Claim C8 -/

theorem any_missing_output_eq_false (fs : FS) (l : List (String × String))
    (h : ∀ kv ∈ l, isAbsolutePath kv.2 = true →
      (fs.files kv.2).isSome = true) :
    (l.any (fun kv => isAbsolutePath kv.2 && (fs.files kv.2).isNone))
      = false := by
  cases hq : l.any (fun kv => isAbsolutePath kv.2 && (fs.files kv.2).isNone) with
  | false => rfl
  | true =>
    exfalso
    rcases List.any_eq_true.mp hq with ⟨kv, hm, hp⟩
    rcases Bool.and_eq_true_iff.mp hp with ⟨h1, h2⟩
    have hs := h kv hm h1
    rw [Option.isNone_iff_eq_none.mp h2] at hs
    simp at hs

theorem mkDiagramCache_after_save (encSize : List (String × RawEntry) → Nat)
    (st : CacheState) (w : World) (dir : String)
    (hnd : KeysNodup st.cache_data) :
    mkDiagramCache dir (save_cache encSize st w)
      = .ok ⟨dir, st.cache_data⟩ := by
  have h1 : mkDiagramCache dir (save_cache encSize st w)
      = match loadEntries (serializeEntries st.cache_data) [] with
        | .ok cd => .ok ⟨dir, cd⟩
        | .error .jsonDecodeError => .ok ⟨dir, []⟩
        | .error .keyError => .ok ⟨dir, []⟩
        | .error .valueError => .ok ⟨dir, []⟩
        | .error .typeError => .error .typeError := rfl
  rw [h1, loadEntries_roundtrip _ hnd]

/-- C8 (amended): after `cache_diagram`, constructing a brand-new
`DiagramCache` over the same cache directory succeeds, `is_cached` with
the same path/content is true, and — provided every absolute path among
the stored output files exists on disk — `get_cached_outputs` returns
exactly the stored output files. (Without that proviso the lookup
returns `none`; see the counterexample.) -/
theorem C8_persistence_roundtrip (sha : Bytes → String)
    (encSize : List (String × RawEntry) → Nat) (st : CacheState) (w : World)
    (p dir : String) (c : Option String)
    (outs md : Option (List (String × String))) (now : Int)
    (hnd : KeysNodup st.cache_data)
    (houts : ∀ kv ∈ outs.getD ([] : List (String × String)),
      isAbsolutePath kv.2 = true → (w.fs.files kv.2).isSome = true) :
    ∃ st2 : CacheState,
      mkDiagramCache dir (cache_diagram sha encSize st w p c outs md now).2
        = .ok st2 ∧
      is_cached sha st2 w.fs p c = true ∧
      get_cached_outputs st2 w.fs p = some (outs.getD []) := by
  refine ⟨⟨dir,
    (cache_diagram sha encSize st w p c outs md now).1.cache_data⟩,
    ?_, ?_, ?_⟩
  · exact mkDiagramCache_after_save encSize
      (cache_diagram sha encSize st w p c outs md now).1 w dir
      (keysNodup_insertKey _ _ _ hnd)
  · cases c with
    | some s =>
      simp [is_cached, cache_diagram, lookupKey_insertKey_self,
        calculate_content_hash]
    | none =>
      cases hf : w.fs.files p with
      | none =>
        simp [is_cached, cache_diagram, lookupKey_insertKey_self, hf]
      | some fd =>
        simp [is_cached, cache_diagram, lookupKey_insertKey_self, hf,
          calculate_file_hash]
  · have hany := any_missing_output_eq_false w.fs (outs.getD []) houts
    simp [get_cached_outputs, cache_diagram, lookupKey_insertKey_self, hany]

theorem C8_witness :
    KeysNodup stOne.cache_data ∧
    (∀ kv ∈ (some [("json", "out/a.json")] :
        Option (List (String × String))).getD [],
      isAbsolutePath kv.2 = true → (wEmpty.fs.files kv.2).isSome = true) ∧
    (∃ st2 : CacheState,
      mkDiagramCache ".cache2"
        (cache_diagram hashH encZero stOne wEmpty "a.puml" (some "v1")
          (some [("json", "out/a.json")]) none 0).2 = .ok st2 ∧
      is_cached hashH st2 wEmpty.fs "a.puml" (some "v1") = true ∧
      get_cached_outputs st2 wEmpty.fs "a.puml"
        = some ((some [("json", "out/a.json")] :
            Option (List (String × String))).getD [])) :=
  ⟨by decide, by decide,
    C8_persistence_roundtrip hashH encZero stOne wEmpty "a.puml" ".cache2"
      (some "v1") (some [("json", "out/a.json")]) none 0 (by decide)
      (by decide)⟩

/-- C8 counterexample: caching with an output file at an absolute path
that does not exist on disk (`"/gone"`), then constructing a brand-new
cache over the same directory, yields `get_cached_outputs = none` rather
than the stored mapping — the round-trip claim fails as stated. -/
theorem C8_counterexample :
    mkDiagramCache ".cache"
        (cache_diagram hashH encZero
          { cache_dir := ".cache", cache_data := [] } wEmpty "a.puml"
          (some "x") (some [("png", "/gone")]) none 0).2
      = .ok { cache_dir := ".cache",
              cache_data := [("a.puml",
                { file_path := "a.puml", content_hash := "h",
                  last_modified := 0, output_files := [("png", "/gone")],
                  metadata := [] })] } ∧
    get_cached_outputs
        { cache_dir := ".cache",
          cache_data := [("a.puml",
            { file_path := "a.puml", content_hash := "h",
              last_modified := 0, output_files := [("png", "/gone")],
              metadata := [] })] } wEmpty.fs "a.puml" = none ∧
    (none : Option (List (String × String))) ≠ some [("png", "/gone")] := by
  refine ⟨rfl, rfl, by decide⟩
